import Mathlib

/-!
Verification of the forum GraphQL API client (scripts/forum_api.py).

The development shallowly embeds the pure core of the client:
forum-alias resolution, the GraphQL response handling of graphql_query,
the client-side recency filter shared by get_user_posts, get_user_comments
and get_posts_by_tag, the activity aggregators, tag search and lookup,
and the text rendering of the comments section of a user-activity report.

Python string primitives used by the source (str.lower, str.strip,
str.replace, the substring test `in`, slicing [:n]) are modelled by
structurally recursive functions on the character list of a String, so
that every definition evaluates by kernel reduction.

External effects are modelled by parameters: HTTP responses arrive as a
status code plus a decoded JSON value; upstream pages of posts, comments
and tags arrive as explicit lists; datetime.now readings and the
datetime.fromisoformat parse arrive as explicit arguments.
-/

namespace ForumApi

/-! ## Python string primitives -/

/-- Model of Python str.lower, mapping Char.toLower over the characters. -/
def lowerStr (s : String) : String := ⟨s.data.map Char.toLower⟩

/-- Model of Python str.strip: drop leading and trailing whitespace. -/
def stripStr (s : String) : String :=
  ⟨(((s.data.dropWhile Char.isWhitespace).reverse).dropWhile Char.isWhitespace).reverse⟩

/-- Model of the Python substring test `needle in hay` on strings. -/
def containsSub : List Char → List Char → Bool
  | [], needle => needle.isEmpty
  | c :: t, needle => needle.isPrefixOf (c :: t) || containsSub t needle

/-- Model of the source call postedAt.replace of the single character Z by
the zero-offset marker, as done before datetime.fromisoformat. -/
def normalizeZ (s : String) : String :=
  ⟨s.data.foldr (fun c acc => (if c = 'Z' then "+00:00".data else [c]) ++ acc) []⟩

/-- Model of Python slicing s[0:n], by characters. -/
def takeStr (s : String) (n : Nat) : String := ⟨s.data.take n⟩

/-! ## Forum registry (FORUMS) -/

/-- One entry of the FORUMS table: display name, GraphQL url, base url,
accepted aliases. -/
structure ForumConfig where
  name : String
  url : String
  base_url : String
  aliases : List String
deriving DecidableEq, Repr

def lesswrongConfig : ForumConfig :=
  { name := "LessWrong"
    url := "https://www.lesswrong.com/graphql"
    base_url := "https://www.lesswrong.com"
    aliases := ["lw", "less-wrong"] }

def eaforumConfig : ForumConfig :=
  { name := "EA Forum"
    url := "https://forum.effectivealtruism.org/graphql"
    base_url := "https://forum.effectivealtruism.org"
    aliases := ["ea", "effective-altruism", "ea-forum"] }

def alignmentforumConfig : ForumConfig :=
  { name := "Alignment Forum"
    url := "https://www.alignmentforum.org/graphql"
    base_url := "https://www.alignmentforum.org"
    aliases := ["af", "alignment", "alignment-forum"] }

/-- The FORUMS mapping, in source order. -/
def FORUMS : List (String × ForumConfig) :=
  [("lesswrong", lesswrongConfig),
   ("eaforum", eaforumConfig),
   ("alignmentforum", alignmentforumConfig)]

/-! ## Errors

The source raises plain exceptions with formatted messages; the spec
names the kinds. Each kind keeps the data the source puts in the
message. -/

/-- A decoded JSON value, as produced by response.json(). -/
inductive Jsonv where
  | null
  | bool (b : Bool)
  | num (n : Int)
  | str (s : String)
  | arr (elems : List Jsonv)
  | obj (fields : List (String × Jsonv))

/-- Key lookup in a decoded JSON object, the model of Python
`key in data` and data.get(key). -/
def Jsonv.getKey? : Jsonv → String → Option Jsonv
  | .obj fields, k => fields.lookup k
  | _, _ => none

inductive ApiError where
  | unknownForum (msg : String)
  | httpError (status : Nat)
  | graphqlErrors (errs : Jsonv)
  | notFound (msg : String)

/-! ## resolve_forum -/

/-- The body of resolve_forum after the input has been lowered and
stripped: direct key match first, then the first forum whose alias list
contains the input, else the unknown-forum error listing the keys. -/
def resolve_norm (fi : String) : Except ApiError String :=
  if (FORUMS.map Prod.fst).contains fi then Except.ok fi
  else
    match FORUMS.find? (fun kc => kc.snd.aliases.contains fi) with
    | some kc => Except.ok kc.fst
    | none => Except.error (ApiError.unknownForum
        ("Unknown forum: " ++ fi ++ ". Valid options: "
          ++ String.intercalate ", " (FORUMS.map Prod.fst)))

/-- resolve_forum: lower, strip, then resolve. -/
def resolve_forum (forum_input : String) : Except ApiError String :=
  resolve_norm (stripStr (lowerStr forum_input))

/-! ## graphql_query response handling

The request side (url, payload) has no bearing on the claims; the
response handling is: response.raise_for_status() first, then the
top-level errors check, then data.get of the data field defaulting to
the empty object. The status code and decoded body are parameters. -/

def graphql_query (status : Nat) (body : Jsonv) : Except ApiError Jsonv :=
  if 400 ≤ status && status < 600 then Except.error (ApiError.httpError status)
  else
    match body.getKey? "errors" with
    | some errs => Except.error (ApiError.graphqlErrors errs)
    | none => Except.ok ((body.getKey? "data").getD (Jsonv.obj []))

/-! ## Posts, comments, tags and the recency filter -/

/-- A post row as selected by the post queries (fields the modelled code
reads). postedAt is kept as the raw ISO string, as fetched. -/
structure Post where
  id : String
  title : String
  slug : String
  pageUrl : String
  postedAt : String
  baseScore : Int
deriving DecidableEq, Repr

/-- A comment row as selected by the comment query. postTitle is the
title of the parent post; plaintextDescription is the excerpt source. -/
structure Comment where
  id : String
  postedAt : String
  pageUrl : String
  baseScore : Int
  postTitle : String
  plaintextDescription : String
deriving DecidableEq, Repr

/-- A tag row as selected by the tag queries. -/
structure Tag where
  id : String
  name : String
  slug : String
  postCount : Int
deriving DecidableEq, Repr

/-- Model of datetime.fromisoformat applied after the Z normalization.
The parse itself (fromiso) is an explicit parameter mapping an ISO
string to an instant, in seconds. -/
def parsePostedAt (fromiso : String → Int) (s : String) : Int :=
  fromiso (normalizeZ s)

/-- get_user_posts after the fetch: the date filter applied to the
fetched page when since_date is given. -/
def get_user_posts (fromiso : String → Int) (fetched : List Post)
    (since_date : Option Int) : List Post :=
  match since_date with
  | none => fetched
  | some w => fetched.filter (fun p => decide (w ≤ parsePostedAt fromiso p.postedAt))

/-- get_user_comments after the fetch: the same date filter on comments. -/
def get_user_comments (fromiso : String → Int) (fetched : List Comment)
    (since_date : Option Int) : List Comment :=
  match since_date with
  | none => fetched
  | some w => fetched.filter (fun c => decide (w ≤ parsePostedAt fromiso c.postedAt))

/-- get_posts_by_tag after the fetch: the same date filter on the tagged
posts page. -/
def get_posts_by_tag (fromiso : String → Int) (fetched : List Post)
    (since_date : Option Int) : List Post :=
  match since_date with
  | none => fetched
  | some w => fetched.filter (fun p => decide (w ≤ parsePostedAt fromiso p.postedAt))

/-! ## Activity aggregators

fetch_user_activity reads the clock twice: once to compute since_date
(before the fetches) and once to stamp fetched_at (after them). The two
readings now1 and now2 are explicit parameters, in seconds; timedelta
days convert at 86400 seconds per day. -/

def secondsPerDay : Int := 86400

structure UserActivity where
  forum : String
  posts : List Post
  comments : List Comment
  since_date : Int
  fetched_at : Int
deriving DecidableEq, Repr

def fetch_user_activity (fromiso : String → Int) (now1 now2 : Int) (days : Int)
    (forum : String) (rawPosts : List Post) (rawComments : List Comment) :
    UserActivity :=
  let since_date := now1 - days * secondsPerDay
  { forum := forum
    posts := get_user_posts fromiso rawPosts (some since_date)
    comments := get_user_comments fromiso rawComments (some since_date)
    since_date := since_date
    fetched_at := now2 }

structure TopicActivity where
  forum : String
  topic : Tag
  posts : List Post
  since_date : Int
  fetched_at : Int
deriving DecidableEq, Repr

def fetch_topic_activity (fromiso : String → Int) (now1 now2 : Int) (days : Int)
    (forum : String) (tag : Tag) (rawPosts : List Post) : TopicActivity :=
  let since_date := now1 - days * secondsPerDay
  { forum := forum
    topic := tag
    posts := get_posts_by_tag fromiso rawPosts (some since_date)
    since_date := since_date
    fetched_at := now2 }

/-! ## Tag lookup and search

Both fetch one page of the alphabetical tag list; the page fetch is a
parameter from requested page limit to returned page. get_tag_by_slug
requests 500, search_tags requests 200, as in the source. -/

def get_tag_by_slug (fetch : Nat → List Tag) (slug : String) : Except ApiError Tag :=
  let tags := fetch 500
  match tags.find? (fun t => lowerStr t.slug == lowerStr slug) with
  | some t => Except.ok t
  | none => Except.error (ApiError.notFound ("Tag/topic not found: " ++ slug))

def search_tags (fetch : Nat → List Tag) (query_str : String) (limit : Nat) :
    List Tag :=
  let tags := fetch 200
  let matching :=
    tags.filter (fun t => containsSub (lowerStr t.name).data (lowerStr query_str).data)
  matching.take limit

/-! ## Text rendering of the comments section of print_user_activity

The date formatter (format_date, a strftime of the parsed date) is an
explicit parameter; each printed line is one list element. -/

/-- The three lines printed for one comment inside the first-10 loop. -/
def renderComment (fmtDate : String → String) (c : Comment) : List String :=
  ["  [" ++ fmtDate c.postedAt ++ "] On: " ++ c.postTitle
     ++ " (score: " ++ toString c.baseScore ++ ")",
   "    \"" ++ takeStr c.plaintextDescription 100 ++ "...\"",
   "    " ++ c.pageUrl]

/-- The comments section of print_user_activity: header with the count,
then either the no-comments line, or the first ten comments and, when
more than ten exist, the trailing more-comments line. -/
def commentsSection (fmtDate : String → String) (comments : List Comment) :
    List String :=
  ("Comments (" ++ toString comments.length ++ "):") ::
    (if comments = [] then ["  No comments in this period."]
     else
       (comments.take 10).flatMap (renderComment fmtDate) ++
         (if 10 < comments.length then
            ["  ... and " ++ toString (comments.length - 10) ++ " more comments"]
          else []))

/-! ## Concrete sample data used by witnesses -/

/-- A constant stand-in for datetime.fromisoformat in closed witnesses. -/
def constParse : String → Int := fun _ => 0

def demoPost : Post :=
  { id := "p1", title := "T", slug := "t", pageUrl := "u"
    postedAt := "2024-01-01T00:00:00Z", baseScore := 1 }

def demoComment : Comment :=
  { id := "c1", postedAt := "2024-01-02T00:00:00Z", pageUrl := "cu"
    baseScore := 2, postTitle := "T", plaintextDescription := "hello world" }

def demoTag : Tag :=
  { id := "t1", name := "AI Safety", slug := "ai-safety", postCount := 3 }

def demoTags : List Tag :=
  [demoTag, { id := "t2", name := "Economics", slug := "economics", postCount := 5 }]

/-- A page fetch honouring its requested page limit, for witnesses. -/
def demoFetch (n : Nat) : List Tag := demoTags.take n

def demoComments : List Comment := List.replicate 15 demoComment

/-! ## Helper lemmas -/

theorem containsSub_nil (l : List Char) : containsSub l [] = true := by
  cases l with
  | nil => rfl
  | cons c t => simp [containsSub, List.isPrefixOf]

theorem filter_since_spec {α : Type} [DecidableEq α] (key : α → Int) (w : Int)
    (l : List α) :
    (l.filter fun x => decide (w ≤ key x)).Sublist l
    ∧ (∀ x, (x ∈ l.filter fun x => decide (w ≤ key x)) ↔ x ∈ l ∧ w ≤ key x)
    ∧ ∀ x, (l.filter fun x => decide (w ≤ key x)).count x
        = if w ≤ key x then l.count x else 0 := by
  refine ⟨List.filter_sublist l, ?_, ?_⟩
  · intro x
    simp [List.mem_filter]
  · intro x
    by_cases hx : w ≤ key x
    · rw [if_pos hx]
      exact List.count_filter (decide_eq_true hx)
    · rw [if_neg hx]
      exact List.count_eq_zero.mpr
        (fun hm => hx (of_decide_eq_true (List.mem_filter.mp hm).2))

/-! ## Claim theorems -/

/-- C1: for every item sequence and window start W, the since_date filter
inside get_user_posts, get_user_comments and get_posts_by_tag returns
exactly the subsequence of the input, in the original order, consisting of
the items whose posted_at, parsed after the Z normalization, is at least
W: the output is a sublist of the input, membership is membership in the
input together with the window condition, and multiplicities are
preserved on retained items and zero otherwise. -/
theorem recency_filter_exact (fromiso : String → Int) (w : Int)
    (posts : List Post) (comments : List Comment) (tagged : List Post) :
    ((get_user_posts fromiso posts (some w)).Sublist posts
      ∧ (∀ p, p ∈ get_user_posts fromiso posts (some w) ↔
          p ∈ posts ∧ w ≤ parsePostedAt fromiso p.postedAt)
      ∧ (∀ p, (get_user_posts fromiso posts (some w)).count p
          = if w ≤ parsePostedAt fromiso p.postedAt then posts.count p else 0))
    ∧ ((get_user_comments fromiso comments (some w)).Sublist comments
      ∧ (∀ c, c ∈ get_user_comments fromiso comments (some w) ↔
          c ∈ comments ∧ w ≤ parsePostedAt fromiso c.postedAt)
      ∧ (∀ c, (get_user_comments fromiso comments (some w)).count c
          = if w ≤ parsePostedAt fromiso c.postedAt then comments.count c else 0))
    ∧ ((get_posts_by_tag fromiso tagged (some w)).Sublist tagged
      ∧ (∀ p, p ∈ get_posts_by_tag fromiso tagged (some w) ↔
          p ∈ tagged ∧ w ≤ parsePostedAt fromiso p.postedAt)
      ∧ (∀ p, (get_posts_by_tag fromiso tagged (some w)).count p
          = if w ≤ parsePostedAt fromiso p.postedAt then tagged.count p else 0)) :=
  ⟨filter_since_spec (fun p : Post => parsePostedAt fromiso p.postedAt) w posts,
   filter_since_spec (fun c : Comment => parsePostedAt fromiso c.postedAt) w comments,
   filter_since_spec (fun p : Post => parsePostedAt fromiso p.postedAt) w tagged⟩

/-- C7: the recency filter is idempotent, and a window start at or below
the parsed posted_at of every item leaves the input unchanged. -/
theorem recency_filter_idempotent_noop (fromiso : String → Int) (w : Int)
    (posts : List Post) :
    get_user_posts fromiso (get_user_posts fromiso posts (some w)) (some w)
      = get_user_posts fromiso posts (some w)
    ∧ ((∀ p ∈ posts, w ≤ parsePostedAt fromiso p.postedAt) →
        get_user_posts fromiso posts (some w) = posts) := by
  constructor
  · exact List.filter_eq_self.mpr (fun a ha => (List.mem_filter.mp ha).2)
  · intro h
    exact List.filter_eq_self.mpr (fun a ha => decide_eq_true (h a ha))

/-- C7 witness: the two properties at a concrete input. -/
theorem recency_filter_idempotent_noop_witness :
    get_user_posts constParse (get_user_posts constParse [demoPost] (some 0)) (some 0)
      = get_user_posts constParse [demoPost] (some 0)
    ∧ ((∀ p ∈ [demoPost], (0 : Int) ≤ parsePostedAt constParse p.postedAt) →
        get_user_posts constParse [demoPost] (some 0) = [demoPost]) :=
  recency_filter_idempotent_noop constParse 0 [demoPost]

/-- C2 counterexample: with the first clock reading at 0, the second at 1
and a 7-day window, the report has since_date equal to the first reading
minus seven days, which differs from fetched_at minus seven days because
the fetched_at stamp is taken by a later clock reading. -/
theorem window_stamp_counterexample :
    ¬ ((fetch_user_activity constParse 0 1 7 "lesswrong" [] []).since_date
        = (fetch_user_activity constParse 0 1 7 "lesswrong" [] []).fetched_at
            - 7 * secondsPerDay) := by decide

/-- C2 amended: since_date equals the clock reading taken before the
fetches minus the requested days, hence is at most fetched_at minus the
requested days when the clock is monotone, and every post and comment in
either report has parsed posted_at at least since_date. -/
theorem window_stamp_amended (fromiso : String → Int) (now1 now2 : Int)
    (days : Int) (forum : String) (rawPosts : List Post)
    (rawComments : List Comment) (tag : Tag) (rawTagged : List Post)
    (hclock : now1 ≤ now2) :
    (fetch_user_activity fromiso now1 now2 days forum rawPosts rawComments).since_date
        = now1 - days * secondsPerDay
    ∧ (fetch_user_activity fromiso now1 now2 days forum rawPosts rawComments).since_date
        ≤ (fetch_user_activity fromiso now1 now2 days forum rawPosts rawComments).fetched_at
            - days * secondsPerDay
    ∧ (∀ p ∈ (fetch_user_activity fromiso now1 now2 days forum rawPosts rawComments).posts,
        (fetch_user_activity fromiso now1 now2 days forum rawPosts rawComments).since_date
          ≤ parsePostedAt fromiso p.postedAt)
    ∧ (∀ c ∈ (fetch_user_activity fromiso now1 now2 days forum rawPosts rawComments).comments,
        (fetch_user_activity fromiso now1 now2 days forum rawPosts rawComments).since_date
          ≤ parsePostedAt fromiso c.postedAt)
    ∧ (fetch_topic_activity fromiso now1 now2 days forum tag rawTagged).since_date
        = now1 - days * secondsPerDay
    ∧ (fetch_topic_activity fromiso now1 now2 days forum tag rawTagged).since_date
        ≤ (fetch_topic_activity fromiso now1 now2 days forum tag rawTagged).fetched_at
            - days * secondsPerDay
    ∧ (∀ p ∈ (fetch_topic_activity fromiso now1 now2 days forum tag rawTagged).posts,
        (fetch_topic_activity fromiso now1 now2 days forum tag rawTagged).since_date
          ≤ parsePostedAt fromiso p.postedAt) := by
  refine ⟨rfl, ?_, ?_, ?_, rfl, ?_, ?_⟩
  · exact sub_le_sub_right hclock _
  · intro p hp
    exact of_decide_eq_true (List.mem_filter.mp hp).2
  · intro c hc
    exact of_decide_eq_true (List.mem_filter.mp hc).2
  · exact sub_le_sub_right hclock _
  · intro p hp
    exact of_decide_eq_true (List.mem_filter.mp hp).2

/-- C2 witness for the amended statement, at a concrete monotone clock. -/
theorem window_stamp_amended_witness :
    (0 : Int) ≤ 1
    ∧ ((fetch_user_activity constParse 0 1 7 "lesswrong" [] []).since_date
          = 0 - 7 * secondsPerDay
      ∧ (fetch_user_activity constParse 0 1 7 "lesswrong" [] []).since_date
          ≤ (fetch_user_activity constParse 0 1 7 "lesswrong" [] []).fetched_at
              - 7 * secondsPerDay
      ∧ (∀ p ∈ (fetch_user_activity constParse 0 1 7 "lesswrong" [] []).posts,
          (fetch_user_activity constParse 0 1 7 "lesswrong" [] []).since_date
            ≤ parsePostedAt constParse p.postedAt)
      ∧ (∀ c ∈ (fetch_user_activity constParse 0 1 7 "lesswrong" [] []).comments,
          (fetch_user_activity constParse 0 1 7 "lesswrong" [] []).since_date
            ≤ parsePostedAt constParse c.postedAt)
      ∧ (fetch_topic_activity constParse 0 1 7 "lesswrong" demoTag []).since_date
          = 0 - 7 * secondsPerDay
      ∧ (fetch_topic_activity constParse 0 1 7 "lesswrong" demoTag []).since_date
          ≤ (fetch_topic_activity constParse 0 1 7 "lesswrong" demoTag []).fetched_at
              - 7 * secondsPerDay
      ∧ (∀ p ∈ (fetch_topic_activity constParse 0 1 7 "lesswrong" demoTag []).posts,
          (fetch_topic_activity constParse 0 1 7 "lesswrong" demoTag []).since_date
            ≤ parsePostedAt constParse p.postedAt)) :=
  ⟨by decide,
   window_stamp_amended constParse 0 1 7 "lesswrong" [] [] demoTag [] (by decide)⟩

/-- C3: a response body with a top-level errors array makes graphql_query
fail with the GraphQL-errors failure carrying that array verbatim when
the HTTP status admits a body (in particular at status 200), and such a
body never yields a normal return at any status. -/
theorem graphql_errors_array_fails (status : Nat) (body : Jsonv)
    (errs : List Jsonv)
    (herr : body.getKey? "errors" = some (Jsonv.arr errs))
    (hst : status < 400) :
    graphql_query status body
      = Except.error (ApiError.graphqlErrors (Jsonv.arr errs))
    ∧ ∀ (s : Nat) (d : Jsonv), graphql_query s body ≠ Except.ok d := by
  constructor
  · have hb : (decide (400 ≤ status) && decide (status < 600)) = false := by
      simp [decide_eq_false_iff_not]
      omega
    simp [graphql_query, hb, herr]
  · intro s d h
    simp only [graphql_query] at h
    split at h
    · exact Except.noConfusion h
    · rw [herr] at h
      exact Except.noConfusion h

def boomBody : Jsonv :=
  Jsonv.obj [("errors", Jsonv.arr [Jsonv.obj [("message", Jsonv.str "boom")]])]

/-- C3 witness: the boom scenario at HTTP status 200. -/
theorem graphql_errors_array_fails_witness :
    boomBody.getKey? "errors"
        = some (Jsonv.arr [Jsonv.obj [("message", Jsonv.str "boom")]])
    ∧ 200 < 400
    ∧ (graphql_query 200 boomBody
        = Except.error (ApiError.graphqlErrors
            (Jsonv.arr [Jsonv.obj [("message", Jsonv.str "boom")]]))
      ∧ ∀ (s : Nat) (d : Jsonv), graphql_query s boomBody ≠ Except.ok d) :=
  ⟨rfl, by decide,
   graphql_errors_array_fails 200 boomBody _ rfl (by decide)⟩

/-- C10: the presence of the errors key alone, whatever its value,
makes graphql_query fail with the GraphQL-errors failure carrying that
value, at any status that passes the HTTP check. -/
theorem graphql_errors_key_presence (status : Nat) (body : Jsonv) (v : Jsonv)
    (herr : body.getKey? "errors" = some v)
    (hst : status < 400) :
    graphql_query status body = Except.error (ApiError.graphqlErrors v) := by
  have hb : (decide (400 ≤ status) && decide (status < 600)) = false := by
    simp [decide_eq_false_iff_not]
    omega
  simp [graphql_query, hb, herr]

def emptyErrorsBody : Jsonv :=
  Jsonv.obj [("errors", Jsonv.arr []), ("data", Jsonv.obj [])]

def nullErrorsBody : Jsonv := Jsonv.obj [("errors", Jsonv.null)]

/-- C10 witness: an empty errors array and a null errors value both
trigger the failure at status 200. -/
theorem graphql_errors_key_presence_witness :
    emptyErrorsBody.getKey? "errors" = some (Jsonv.arr [])
    ∧ 200 < 400
    ∧ graphql_query 200 emptyErrorsBody
        = Except.error (ApiError.graphqlErrors (Jsonv.arr []))
    ∧ graphql_query 200 nullErrorsBody
        = Except.error (ApiError.graphqlErrors Jsonv.null) :=
  ⟨rfl, by decide,
   graphql_errors_key_presence 200 emptyErrorsBody _ rfl (by decide),
   graphql_errors_key_presence 200 nullErrorsBody _ rfl (by decide)⟩

theorem resolve_norm_alias (x key : String) (cfg : ForumConfig)
    (hmem : (key, cfg) ∈ FORUMS) (hin : x = key ∨ x ∈ cfg.aliases) :
    resolve_norm x = Except.ok key := by
  simp only [FORUMS, List.mem_cons, List.not_mem_nil, or_false,
    Prod.mk.injEq] at hmem
  rcases hmem with ⟨hk, hc⟩ | ⟨hk, hc⟩ | ⟨hk, hc⟩ <;> subst hk <;> subst hc <;>
    rcases hin with rfl | h
  · rfl
  · fin_cases h <;> rfl
  · rfl
  · fin_cases h <;> rfl
  · rfl
  · fin_cases h <;> rfl

/-- C4: any input whose lowered and stripped form is a configured key or
one of its aliases resolves to that canonical key, so a key and each of
its aliases resolve alike, whatever the case and surrounding whitespace
of the input. -/
theorem resolve_forum_alias_eq (s key : String) (cfg : ForumConfig)
    (hmem : (key, cfg) ∈ FORUMS)
    (hin : stripStr (lowerStr s) = key ∨ stripStr (lowerStr s) ∈ cfg.aliases) :
    resolve_forum s = Except.ok key :=
  resolve_norm_alias (stripStr (lowerStr s)) key cfg hmem hin

/-- C4 witness: the alias lw with extra case and whitespace resolves to
the lesswrong key. -/
theorem resolve_forum_alias_eq_witness :
    (("lesswrong", lesswrongConfig) ∈ FORUMS
      ∧ (stripStr (lowerStr " LW ") = "lesswrong"
          ∨ stripStr (lowerStr " LW ") ∈ lesswrongConfig.aliases))
    ∧ resolve_forum " LW " = Except.ok "lesswrong" :=
  ⟨⟨by decide, Or.inr (by decide)⟩,
   resolve_forum_alias_eq " LW " "lesswrong" lesswrongConfig (by decide)
     (Or.inr (by decide))⟩

/-- C8: an input matching neither a key nor any alias after lowering and
stripping makes resolve_forum fail with the unknown-forum error whose
message lists the canonical keys, and resolve_forum never returns a key
for it. -/
theorem resolve_forum_unknown (s : String)
    (hkey : ∀ kc ∈ FORUMS, stripStr (lowerStr s) ≠ kc.fst)
    (halias : ∀ kc ∈ FORUMS, stripStr (lowerStr s) ∉ kc.snd.aliases) :
    resolve_forum s = Except.error (ApiError.unknownForum
      ("Unknown forum: " ++ stripStr (lowerStr s) ++ ". Valid options: "
        ++ String.intercalate ", " (FORUMS.map Prod.fst)))
    ∧ ∀ k, resolve_forum s ≠ Except.ok k := by
  have hx : stripStr (lowerStr s) ∉ FORUMS.map Prod.fst := by
    intro hx
    rcases List.mem_map.mp hx with ⟨kc, hkc, hEq⟩
    exact hkey kc hkc hEq.symm
  have h1 : ((FORUMS.map Prod.fst).contains (stripStr (lowerStr s))) = false := by
    simpa using hx
  have h2 : FORUMS.find?
      (fun kc => kc.snd.aliases.contains (stripStr (lowerStr s))) = none := by
    refine List.find?_eq_none.mpr (fun kc hkc => ?_)
    simpa using halias kc hkc
  have hmain : resolve_forum s = Except.error (ApiError.unknownForum
      ("Unknown forum: " ++ stripStr (lowerStr s) ++ ". Valid options: "
        ++ String.intercalate ", " (FORUMS.map Prod.fst))) := by
    simp only [resolve_forum, resolve_norm, h1]
    rw [if_neg (by simp), h2]
  exact ⟨hmain, fun k hk => Except.noConfusion (hmain ▸ hk)⟩

/-- C8 witness: the unregistered input reddit. -/
theorem resolve_forum_unknown_witness :
    (∀ kc ∈ FORUMS, stripStr (lowerStr "reddit") ≠ kc.fst)
    ∧ (∀ kc ∈ FORUMS, stripStr (lowerStr "reddit") ∉ kc.snd.aliases)
    ∧ (resolve_forum "reddit" = Except.error (ApiError.unknownForum
        ("Unknown forum: " ++ stripStr (lowerStr "reddit") ++ ". Valid options: "
          ++ String.intercalate ", " (FORUMS.map Prod.fst)))
      ∧ ∀ k, resolve_forum "reddit" ≠ Except.ok k) :=
  ⟨by decide, by decide,
   resolve_forum_unknown "reddit" (by decide) (by decide)⟩

/-- C5: search_tags works on the page it requests with the fixed bound
200 (so at most 200 tags when the upstream source honours the bound),
and returns, truncated to the limit and in fetched order, exactly the
tags whose lowered name contains the lowered query; the empty query
matches every tag, so the result is then the first limit tags of the
page unfiltered. -/
theorem search_tags_spec (fetch : Nat → List Tag) (q : String) (lim : Nat)
    (hfetch : ∀ n, (fetch n).length ≤ n) :
    (fetch 200).length ≤ 200
    ∧ search_tags fetch q lim
        = ((fetch 200).filter
            (fun t => containsSub (lowerStr t.name).data (lowerStr q).data)).take lim
    ∧ (search_tags fetch q lim).length ≤ lim
    ∧ (search_tags fetch q lim).Sublist (fetch 200)
    ∧ search_tags fetch "" lim = (fetch 200).take lim := by
  refine ⟨hfetch 200, rfl, ?_, ?_, ?_⟩
  · exact List.length_take_le lim _
  · exact (List.take_sublist lim _).trans (List.filter_sublist _)
  · show ((fetch 200).filter
        (fun t => containsSub (lowerStr t.name).data (lowerStr "").data)).take lim
      = (fetch 200).take lim
    have hfeq : (fetch 200).filter
        (fun t => containsSub (lowerStr t.name).data (lowerStr "").data)
        = fetch 200 := by
      refine List.filter_eq_self.mpr (fun a _ => ?_)
      have hmt : (lowerStr "").data = [] := rfl
      rw [hmt]
      exact containsSub_nil _
    rw [hfeq]

/-- C5 witness: a two-tag page with the case-insensitive query safety. -/
theorem search_tags_spec_witness :
    (∀ n, (demoFetch n).length ≤ n)
    ∧ ((demoFetch 200).length ≤ 200
      ∧ search_tags demoFetch "safety" 1
          = ((demoFetch 200).filter
              (fun t => containsSub (lowerStr t.name).data
                (lowerStr "safety").data)).take 1
      ∧ (search_tags demoFetch "safety" 1).length ≤ 1
      ∧ (search_tags demoFetch "safety" 1).Sublist (demoFetch 200)
      ∧ search_tags demoFetch "" 1 = (demoFetch 200).take 1) :=
  ⟨fun n => List.length_take_le n demoTags,
   search_tags_spec demoFetch "safety" 1 (fun n => List.length_take_le n demoTags)⟩

/-- C6: get_tag_by_slug works on the page it requests with the fixed
bound 500 (so at most 500 tags when the upstream source honours the
bound); a normal return is the first fetched tag whose lowered slug
equals the lowered requested slug, and when no fetched tag matches it
fails with the not-found error naming the slug. -/
theorem get_tag_by_slug_spec (fetch : Nat → List Tag) (slug : String)
    (hfetch : ∀ n, (fetch n).length ≤ n) :
    (fetch 500).length ≤ 500
    ∧ (∀ t, get_tag_by_slug fetch slug = Except.ok t →
        lowerStr t.slug = lowerStr slug
        ∧ ∃ pre post, fetch 500 = pre ++ t :: post
            ∧ ∀ u ∈ pre, lowerStr u.slug ≠ lowerStr slug)
    ∧ ((∀ t ∈ fetch 500, lowerStr t.slug ≠ lowerStr slug) →
        get_tag_by_slug fetch slug
          = Except.error (ApiError.notFound ("Tag/topic not found: " ++ slug))) := by
  refine ⟨hfetch 500, ?_, ?_⟩
  · intro t ht
    simp only [get_tag_by_slug] at ht
    cases hfind : (fetch 500).find? (fun u => lowerStr u.slug == lowerStr slug) with
    | none =>
      rw [hfind] at ht
      exact Except.noConfusion ht
    | some u =>
      rw [hfind] at ht
      have hut : u = t := by
        simpa using ht
      subst hut
      obtain ⟨hpred, pre, post, heq, hpre⟩ := List.find?_eq_some.mp hfind
      refine ⟨by simpa using hpred, pre, post, heq, fun v hv => ?_⟩
      have := hpre v hv
      simpa using this
  · intro hall
    simp only [get_tag_by_slug]
    rw [List.find?_eq_none.mpr (fun t ht => by simpa using hall t ht)]

/-- C6 witness: the slug AI-Safety found case-insensitively on the demo
page, applied to the spec theorem. -/
theorem get_tag_by_slug_spec_witness :
    (∀ n, (demoFetch n).length ≤ n)
    ∧ ((demoFetch 500).length ≤ 500
      ∧ (∀ t, get_tag_by_slug demoFetch "AI-Safety" = Except.ok t →
          lowerStr t.slug = lowerStr "AI-Safety"
          ∧ ∃ pre post, demoFetch 500 = pre ++ t :: post
              ∧ ∀ u ∈ pre, lowerStr u.slug ≠ lowerStr "AI-Safety")
      ∧ ((∀ t ∈ demoFetch 500, lowerStr t.slug ≠ lowerStr "AI-Safety") →
          get_tag_by_slug demoFetch "AI-Safety"
            = Except.error
                (ApiError.notFound ("Tag/topic not found: " ++ "AI-Safety")))) :=
  ⟨fun n => List.length_take_le n demoTags,
   get_tag_by_slug_spec demoFetch "AI-Safety"
     (fun n => List.length_take_le n demoTags)⟩

/-- C9: in text mode the comments section of a user-activity report shows
at most the first ten comments; with at most ten comments all of them are
rendered and no trailing line is added, with more than ten exactly the
first ten are rendered followed by the single trailing more-comments line
naming the remainder; each rendered comment carries as its second line an
excerpt of the first hundred characters of its plaintext description. -/
theorem comments_render_spec (fmtDate : String → String)
    (comments : List Comment) (hne : comments ≠ []) :
    (comments.length ≤ 10 →
      commentsSection fmtDate comments
        = ("Comments (" ++ toString comments.length ++ "):")
            :: comments.flatMap (renderComment fmtDate))
    ∧ (10 < comments.length →
      commentsSection fmtDate comments
        = ("Comments (" ++ toString comments.length ++ "):")
            :: ((comments.take 10).flatMap (renderComment fmtDate)
                ++ ["  ... and " ++ toString (comments.length - 10)
                      ++ " more comments"])
        ∧ (comments.take 10).length = 10)
    ∧ (∀ c, (renderComment fmtDate c)[1]?
        = some ("    \"" ++ takeStr c.plaintextDescription 100 ++ "...\"")) := by
  refine ⟨?_, ?_, ?_⟩
  · intro h10
    simp only [commentsSection, if_neg hne]
    rw [if_neg (by omega), List.take_of_length_le h10, List.append_nil]
  · intro h10
    constructor
    · simp only [commentsSection, if_neg hne]
      rw [if_pos h10]
    · rw [List.length_take]
      omega
  · intro c
    rfl

/-- C9 witness: fifteen comments render the first ten plus the trailing
line naming the other five. -/
theorem comments_render_spec_witness :
    demoComments ≠ []
    ∧ ((demoComments.length ≤ 10 →
        commentsSection (fun s => s) demoComments
          = ("Comments (" ++ toString demoComments.length ++ "):")
              :: demoComments.flatMap (renderComment (fun s => s)))
      ∧ (10 < demoComments.length →
        commentsSection (fun s => s) demoComments
          = ("Comments (" ++ toString demoComments.length ++ "):")
              :: ((demoComments.take 10).flatMap (renderComment (fun s => s))
                  ++ ["  ... and " ++ toString (demoComments.length - 10)
                        ++ " more comments"])
          ∧ (demoComments.take 10).length = 10)
      ∧ (∀ c, (renderComment (fun s => s) c)[1]?
          = some ("    \"" ++ takeStr c.plaintextDescription 100 ++ "...\""))) :=
  ⟨by decide, comments_render_spec (fun s => s) demoComments (by decide)⟩

end ForumApi
